import Mathlib

/-!
Verification development for the real-time duplex audio streaming core
(`GeminiLiveService`): playback scheduling, interruption handling,
transcript aggregation, capture metering, session lifecycle events and
teardown, shallowly embedded from the TypeScript source.

Modelling conventions:
* JavaScript strings are modelled as `List Char`; `jsTrim` models
  `String.prototype.trim` and JS truthiness of a trimmed string is
  `jsTrim s ≠ []`.
* Audio-clock times and buffer durations (seconds, `Float` in the source)
  are modelled as rationals.
* `AudioBufferSourceNode`s are identified by a numeric id; the scheduler
  state keeps the active set (`sources`) and the status of every node
  ever created (`buffers`).
-/

namespace GeminiLive

/-- The two transcript senders of the service. -/
inductive Sender where
  | user
  | ai
deriving DecidableEq

/-- Model of `String.prototype.trim`: drop whitespace from both ends. -/
def jsTrim (s : List Char) : List Char :=
  ((s.dropWhile Char.isWhitespace).reverse.dropWhile Char.isWhitespace).reverse

/-- `TranscriptionItem` from `types.ts` (`id`, `sender`, `text`,
`timestamp`, `isFinal`). -/
structure TranscriptionItem where
  id : List Char
  sender : Sender
  text : List Char
  timestamp : Nat
  isFinal : Bool
deriving DecidableEq

/-- `Date.now().toString() + suffix`, the id built by `handleMessage`. -/
def freshId (timestamp : Nat) (suffix : List Char) : List Char :=
  (toString timestamp).toList ++ suffix

/-- Status of one `AudioBufferSourceNode` owned by the playback side. -/
inductive SourceStatus where
  | playing
  | finished
  | stopped
deriving DecidableEq

/-- `source.stop()` wrapped in `try {...} catch (e) {}`: stopping a node
that already finished (or was already stopped) is swallowed and leaves it
as it was; a playing node becomes stopped.  The function is total: no
status makes it fail. -/
def stopSource : SourceStatus → SourceStatus
  | SourceStatus.playing => SourceStatus.stopped
  | SourceStatus.finished => SourceStatus.finished
  | SourceStatus.stopped => SourceStatus.stopped

/-- The mutable fields of `GeminiLiveService` that `handleMessage`
touches: the playback cursor `nextStartTime`, the active source set
`sources`, the statuses of all sources ever created (`buffers`), the two
pending transcription accumulators, and a counter supplying fresh source
ids. -/
structure SvcState where
  nextStartTime : ℚ
  sources : List Nat
  buffers : List (Nat × SourceStatus)
  currentInputTranscription : List Char
  currentOutputTranscription : List Char
  nextSourceId : Nat
deriving DecidableEq

/-- Field values at construction time (`nextStartTime = 0`, empty set,
empty accumulators). -/
def initialState : SvcState :=
  ⟨0, [], [], [], [], 0⟩

/-- The parts of a `LiveServerMessage` that `handleMessage` inspects:
an optional audio chunk (kept as the duration of the decoded buffer), the
`interrupted` flag, the two optional transcription deltas, and the
`turnComplete` flag. -/
structure ServerMsg where
  audio : Option ℚ
  interrupted : Bool
  inputTranscription : Option (List Char)
  outputTranscription : Option (List Char)
  turnComplete : Bool
deriving DecidableEq

/-- A message carrying only an audio chunk of duration `d`. -/
def audioMsg (d : ℚ) : ServerMsg :=
  ⟨some d, false, none, none, false⟩

/-- A message carrying only the `interrupted` flag. -/
def interruptMsg : ServerMsg :=
  ⟨none, true, none, none, false⟩

/-- A message carrying only an input (user) transcription delta. -/
def inputDeltaMsg (t : List Char) : ServerMsg :=
  ⟨none, false, some t, none, false⟩

/-- A message carrying only an output (ai) transcription delta. -/
def outputDeltaMsg (t : List Char) : ServerMsg :=
  ⟨none, false, none, some t, false⟩

/-- A message carrying only the `turnComplete` flag. -/
def turnCompleteMsg : ServerMsg :=
  ⟨none, false, none, none, true⟩

/-- Observable effects of the core: playback-node starts and stop calls,
emitted transcription items, the per-frame visualizer level (carrying the
mean square of the frame, whose square root is the reported rms), the
encoded frame handed to the channel, and the two terminal callbacks
forwarded to the config. -/
inductive CoreEvent where
  | sourceStarted (id : Nat) (time : ℚ)
  | sourceStopCalled (id : Nat)
  | transcription (item : TranscriptionItem)
  | audioData (meanSquare : ℚ)
  | sendRealtime (samples : List ℚ)
  | errorEvent
  | closeEvent
deriving DecidableEq

/-- Section 1 of `handleMessage`: if the message carries audio, set
`nextStartTime = max(nextStartTime, currentTime)`, start a new source at
that time, advance `nextStartTime` by the buffer's duration and add the
source to the active set. -/
def handleAudio (now : ℚ) (msg : ServerMsg) (s : SvcState) :
    SvcState × List CoreEvent :=
  match msg.audio with
  | none => (s, [])
  | some dur =>
      let start := max s.nextStartTime now
      let id := s.nextSourceId
      (⟨start + dur, s.sources ++ [id], s.buffers ++ [(id, SourceStatus.playing)],
        s.currentInputTranscription, s.currentOutputTranscription, id + 1⟩,
       [CoreEvent.sourceStarted id start])

/-- Section 2 of `handleMessage`: on `interrupted`, call `stop()` on every
source in the active set (exceptions swallowed), clear the set, reset
`nextStartTime` to `0` and clear the pending output transcription. -/
def handleInterrupt (msg : ServerMsg) (s : SvcState) :
    SvcState × List CoreEvent :=
  if msg.interrupted then
    (⟨0, [],
      s.buffers.map (fun b => if b.1 ∈ s.sources then (b.1, stopSource b.2) else b),
      s.currentInputTranscription, [], s.nextSourceId⟩,
     s.sources.map CoreEvent.sourceStopCalled)
  else (s, [])

/-- Section 3 of `handleMessage`: append an input transcription delta. -/
def handleInputDelta (msg : ServerMsg) (s : SvcState) : SvcState :=
  match msg.inputTranscription with
  | none => s
  | some t =>
      ⟨s.nextStartTime, s.sources, s.buffers,
       s.currentInputTranscription ++ t, s.currentOutputTranscription,
       s.nextSourceId⟩

/-- Section 3 of `handleMessage`: append an output transcription delta. -/
def handleOutputDelta (msg : ServerMsg) (s : SvcState) : SvcState :=
  match msg.outputTranscription with
  | none => s
  | some t =>
      ⟨s.nextStartTime, s.sources, s.buffers,
       s.currentInputTranscription, s.currentOutputTranscription ++ t,
       s.nextSourceId⟩

/-- Section 4 of `handleMessage`: on `turnComplete`, for each accumulator
whose trimmed content is non-empty (JS truthiness of
`currentXxxTranscription.trim()`), emit one final item carrying the
untrimmed text and clear that accumulator; the user side is checked
first, then the ai side. -/
def handleTurnComplete (timestamp : Nat) (msg : ServerMsg) (s : SvcState) :
    SvcState × List CoreEvent :=
  if msg.turnComplete then
    let userPart :=
      if jsTrim s.currentInputTranscription ≠ [] then
        (([] : List Char),
         [CoreEvent.transcription
            ⟨freshId timestamp ("-user".toList), Sender.user,
             s.currentInputTranscription, timestamp, true⟩])
      else (s.currentInputTranscription, ([] : List CoreEvent))
    let aiPart :=
      if jsTrim s.currentOutputTranscription ≠ [] then
        (([] : List Char),
         [CoreEvent.transcription
            ⟨freshId timestamp ("-ai".toList), Sender.ai,
             s.currentOutputTranscription, timestamp, true⟩])
      else (s.currentOutputTranscription, ([] : List CoreEvent))
    (⟨s.nextStartTime, s.sources, s.buffers, userPart.1, aiPart.1, s.nextSourceId⟩,
     userPart.2 ++ aiPart.2)
  else (s, [])

/-- `GeminiLiveService.handleMessage`: the four sections run in source
order on one message.  `now` is `outputAudioContext.currentTime` and
`timestamp` is `Date.now()` at the time the message is processed. -/
def handleMessage (now : ℚ) (timestamp : Nat) (msg : ServerMsg)
    (s : SvcState) : SvcState × List CoreEvent :=
  let a := handleAudio now msg s
  let i := handleInterrupt msg a.1
  let s3 := handleInputDelta msg i.1
  let s4 := handleOutputDelta msg s3
  let t := handleTurnComplete timestamp msg s4
  (t.1, a.2 ++ i.2 ++ t.2)

/-- Process a list of messages in arrival order, each tagged with the
output clock value and wall-clock timestamp at which it is handled. -/
def runMessages : SvcState → List (ℚ × Nat × ServerMsg) →
    SvcState × List CoreEvent
  | s, [] => (s, [])
  | s, (now, ts, m) :: rest =>
      let r := handleMessage now ts m s
      let rr := runMessages r.1 rest
      (rr.1, r.2 ++ rr.2)

/-- Mean of the squared samples of a frame; the reported rms is its
square root (`Math.sqrt(sum / inputData.length)` in the source). -/
def rmsSq (samples : List ℚ) : ℚ :=
  (samples.map (fun x => x * x)).sum / samples.length

/-- The `onaudioprocess` callback body: one visualizer level delivery
followed by one encode-and-transmit of the same frame. -/
def onAudioProcess (samples : List ℚ) : List CoreEvent :=
  [CoreEvent.audioData (rmsSq samples), CoreEvent.sendRealtime samples]

/-- Session-level state: whether the capture processor is wired (done by
`handleOpen`) together with the message-handling state. -/
structure CoreState where
  captureActive : Bool
  svc : SvcState
deriving DecidableEq

/-- Session state right after `connect` wired the callbacks. -/
def initCore : CoreState :=
  ⟨false, initialState⟩

/-- The externally triggered callbacks of one session: channel open,
an inbound message, channel error, channel close, and one capture-frame
tick of the script processor. -/
inductive SessionInput where
  | chanOpen
  | chanMessage (now : ℚ) (ts : Nat) (msg : ServerMsg)
  | chanError
  | chanClose
  | captureFrame (samples : List ℚ)

/-- Dispatch of one callback, as wired in `connect`/`handleOpen`:
`onopen` starts the capture stage; `onmessage` runs `handleMessage`;
`onerror` forwards one error event to the config and changes nothing
else; `onclose` forwards one close event and changes nothing else; a
capture frame is processed only while the processor is wired, and then
produces exactly one level delivery followed by one transmission. -/
def stepInput (s : CoreState) : SessionInput → CoreState × List CoreEvent
  | SessionInput.chanOpen => (⟨true, s.svc⟩, [])
  | SessionInput.chanMessage now ts m =>
      let r := handleMessage now ts m s.svc
      (⟨s.captureActive, r.1⟩, r.2)
  | SessionInput.chanError => (s, [CoreEvent.errorEvent])
  | SessionInput.chanClose => (s, [CoreEvent.closeEvent])
  | SessionInput.captureFrame samples =>
      if s.captureActive then (s, onAudioProcess samples) else (s, [])

/-- Run a whole session: fold `stepInput` over the callback sequence,
collecting the emitted events in order. -/
def runInputs : CoreState → List SessionInput → CoreState × List CoreEvent
  | s, [] => (s, [])
  | s, i :: rest =>
      let r := stepInput s i
      let rr := runInputs r.1 rest
      (rr.1, r.2 ++ rr.2)

/-- Whether a callback is the channel-error callback. -/
def isChanError : SessionInput → Bool
  | SessionInput.chanError => true
  | _ => false

/-- Whether a callback is the channel-close callback. -/
def isChanClose : SessionInput → Bool
  | SessionInput.chanClose => true
  | _ => false

/-- The transcription items carried by an event list, in emission order. -/
def transcriptionItems (evs : List CoreEvent) : List TranscriptionItem :=
  evs.filterMap (fun e =>
    match e with
    | CoreEvent.transcription it => some it
    | _ => none)

/-- The transcription items of a given sender, in emission order. -/
def senderItems (who : Sender) (evs : List CoreEvent) : List TranscriptionItem :=
  (transcriptionItems evs).filter (fun it => it.sender = who)

/-- The scheduled start times extracted from an event list, in order. -/
def startTimes (evs : List CoreEvent) : List ℚ :=
  evs.filterMap (fun e =>
    match e with
    | CoreEvent.sourceStarted _ t => some t
    | _ => none)

/-- The start times produced by enqueueing a back-to-back sequence of
chunks, each given as (output clock value at processing time, duration). -/
def scheduledStarts (s : SvcState) (chunks : List (ℚ × ℚ)) : List ℚ :=
  startTimes (runMessages s (chunks.map (fun c => (c.1, 0, audioMsg c.2)))).2

/-- The output clock lags the schedule: at each chunk the clock value is
at most the cursor value the scheduler holds when that chunk arrives. -/
def clockLags : ℚ → List (ℚ × ℚ) → Prop
  | _, [] => True
  | c, (now, dur) :: rest => now ≤ c ∧ clockLags (max c now + dur) rest

/-- Start times of back-to-back chunks from cursor `c`: each chunk starts
at the running cursor and advances it by its duration. -/
def cumStarts : ℚ → List ℚ → List ℚ
  | _, [] => []
  | c, d :: ds => c :: cumStarts (c + d) ds

/-- The resources `disconnect` releases: the script processor, the media
stream source node, the two audio contexts, and the media stream. -/
structure Resources where
  processor : Bool
  inputSource : Bool
  inputAudioContext : Bool
  outputAudioContext : Bool
  stream : Bool
deriving DecidableEq

/-- `GeminiLiveService.disconnect`: each held resource is released and
nulled behind its own `if (x)` guard, in source order; no branch can
fail, so the function is total. -/
def disconnectSvc (r : Resources) : Resources :=
  let r1 := if r.processor then
    ⟨false, r.inputSource, r.inputAudioContext, r.outputAudioContext, r.stream⟩
    else r
  let r2 := if r1.inputSource then
    ⟨r1.processor, false, r1.inputAudioContext, r1.outputAudioContext, r1.stream⟩
    else r1
  let r3 := if r2.inputAudioContext then
    ⟨r2.processor, r2.inputSource, false, r2.outputAudioContext, r2.stream⟩
    else r2
  let r4 := if r3.outputAudioContext then
    ⟨r3.processor, r3.inputSource, r3.inputAudioContext, false, r3.stream⟩
    else r3
  if r4.stream then
    ⟨r4.processor, r4.inputSource, r4.inputAudioContext, r4.outputAudioContext, false⟩
    else r4

/-- All owned resources are released. -/
def allReleased (r : Resources) : Prop :=
  r = ⟨false, false, false, false, false⟩

end GeminiLive

namespace GeminiLive

theorem handleMessage_audioMsg (now : ℚ) (ts : Nat) (d : ℚ) (s : SvcState) :
    handleMessage now ts (audioMsg d) s
      = (⟨max s.nextStartTime now + d, s.sources ++ [s.nextSourceId],
          s.buffers ++ [(s.nextSourceId, SourceStatus.playing)],
          s.currentInputTranscription, s.currentOutputTranscription,
          s.nextSourceId + 1⟩,
         [CoreEvent.sourceStarted s.nextSourceId (max s.nextStartTime now)]) := rfl

theorem handleMessage_interruptMsg (now : ℚ) (ts : Nat) (s : SvcState) :
    handleMessage now ts interruptMsg s
      = (⟨0, [],
          s.buffers.map (fun b => if b.1 ∈ s.sources then (b.1, stopSource b.2) else b),
          s.currentInputTranscription, [], s.nextSourceId⟩,
         s.sources.map CoreEvent.sourceStopCalled) := by
  simp [handleMessage, handleAudio, handleInterrupt, handleInputDelta,
    handleOutputDelta, handleTurnComplete, interruptMsg]

theorem handleMessage_inputDeltaMsg (now : ℚ) (ts : Nat) (t : List Char) (s : SvcState) :
    handleMessage now ts (inputDeltaMsg t) s
      = (⟨s.nextStartTime, s.sources, s.buffers,
          s.currentInputTranscription ++ t, s.currentOutputTranscription,
          s.nextSourceId⟩, []) := rfl

theorem handleMessage_outputDeltaMsg (now : ℚ) (ts : Nat) (t : List Char) (s : SvcState) :
    handleMessage now ts (outputDeltaMsg t) s
      = (⟨s.nextStartTime, s.sources, s.buffers,
          s.currentInputTranscription, s.currentOutputTranscription ++ t,
          s.nextSourceId⟩, []) := rfl

theorem scheduledStarts_eq_cumStarts (chunks : List (ℚ × ℚ)) :
    ∀ s : SvcState, clockLags s.nextStartTime chunks →
      scheduledStarts s chunks = cumStarts s.nextStartTime (chunks.map Prod.snd) := by
  induction chunks with
  | nil => intro s _; rfl
  | cons c rest ih =>
      obtain ⟨now, dur⟩ := c
      intro s h
      obtain ⟨h1, h2⟩ := h
      have hmax : max s.nextStartTime now = s.nextStartTime := max_eq_left h1
      have hstep : scheduledStarts s ((now, dur) :: rest)
          = max s.nextStartTime now
              :: scheduledStarts (handleMessage now 0 (audioMsg dur) s).1 rest := by
        simp [scheduledStarts, runMessages, startTimes, List.filterMap_append,
              handleMessage_audioMsg]
      have hnext : (handleMessage now 0 (audioMsg dur) s).1.nextStartTime
          = max s.nextStartTime now + dur := by rw [handleMessage_audioMsg]
      have htail := ih (handleMessage now 0 (audioMsg dur) s).1
        (by rw [hnext]; exact h2)
      rw [hstep, htail, hnext, hmax]
      rfl

theorem cumStarts_get? (ds : List ℚ) :
    ∀ (c : ℚ) (k : Nat), k < ds.length →
      (cumStarts c ds).get? k = some (c + (ds.take k).sum) := by
  induction ds with
  | nil => intro c k hk; simp at hk
  | cons d ds ih =>
      intro c k hk
      cases k with
      | zero => simp [cumStarts]
      | succ k =>
          have hk' : k < ds.length := by simpa using hk
          simp only [cumStarts, List.get?_cons_succ]
          rw [ih (c + d) k hk']
          simp [add_assoc]

/-- C1: every enqueued chunk is scheduled at `max(nextStartTime, clock)`
and the cursor advances to that start plus the chunk's duration; for a
back-to-back sequence with the output clock lagging the schedule, the
k-th chunk starts at the sum of the previous durations. -/
theorem C1_gapless_playback_scheduling :
    (∀ (s : SvcState) (now : ℚ) (ts : Nat) (d : ℚ),
        (handleMessage now ts (audioMsg d) s).2
          = [CoreEvent.sourceStarted s.nextSourceId (max s.nextStartTime now)]
        ∧ (handleMessage now ts (audioMsg d) s).1.nextStartTime
          = max s.nextStartTime now + d)
    ∧ (∀ chunks : List (ℚ × ℚ), clockLags 0 chunks →
        ∀ k : Nat, k < chunks.length →
          (scheduledStarts initialState chunks).get? k
            = some (((chunks.map Prod.snd).take k).sum)) := by
  constructor
  · intro s now ts d
    rw [handleMessage_audioMsg]
    exact ⟨rfl, rfl⟩
  · intro chunks h k hk
    have h0 : clockLags initialState.nextStartTime chunks := h
    rw [scheduledStarts_eq_cumStarts chunks initialState h0]
    have := cumStarts_get? (chunks.map Prod.snd) initialState.nextStartTime k
      (by simpa using hk)
    rw [this]
    simp [initialState]

theorem C1_witness :
    clockLags 0 [((0:ℚ), (1:ℚ)), ((0:ℚ), (1:ℚ))]
    ∧ (1:Nat) < 2
    ∧ (scheduledStarts initialState [((0:ℚ), (1:ℚ)), ((0:ℚ), (1:ℚ))]).get? 1
        = some ((([((0:ℚ), (1:ℚ)), ((0:ℚ), (1:ℚ))].map Prod.snd).take 1).sum) :=
  ⟨by simp [clockLags], by decide,
   C1_gapless_playback_scheduling.2 _ (by simp [clockLags]) 1 (by decide)⟩

end GeminiLive

namespace GeminiLive

/-- C2: processing an interruption calls stop on every active buffer
(stop on a finished buffer is a swallowed no-op), empties the active set,
resets the cursor to 0, and the next enqueued chunk starts exactly at the
output clock value, never at a stale cursor. -/
theorem C2_interrupt_clears_playback
    (s : SvcState) (now : ℚ) (ts : Nat) (id : Nat) (st : SourceStatus)
    (hmem : (id, st) ∈ s.buffers) (hact : id ∈ s.sources)
    (now2 d : ℚ) (ts2 : Nat) (hclk : 0 ≤ now2) :
    (handleMessage now ts interruptMsg s).1.sources = []
    ∧ (handleMessage now ts interruptMsg s).1.nextStartTime = 0
    ∧ (handleMessage now ts interruptMsg s).2
        = s.sources.map CoreEvent.sourceStopCalled
    ∧ (id, stopSource st) ∈ (handleMessage now ts interruptMsg s).1.buffers
    ∧ stopSource SourceStatus.finished = SourceStatus.finished
    ∧ (handleMessage now2 ts2 (audioMsg d)
          (handleMessage now ts interruptMsg s).1).2
        = [CoreEvent.sourceStarted
            (handleMessage now ts interruptMsg s).1.nextSourceId now2] := by
  rw [handleMessage_interruptMsg]
  refine ⟨rfl, rfl, rfl, ?_, rfl, ?_⟩
  · have h := List.mem_map_of_mem
      (fun b : Nat × SourceStatus =>
        if b.1 ∈ s.sources then (b.1, stopSource b.2) else b) hmem
    simpa [hact] using h
  · rw [handleMessage_audioMsg]
    simp [max_eq_right hclk]

theorem C2_witness :
    ((0, SourceStatus.playing)
        ∈ ([(0, SourceStatus.playing), (1, SourceStatus.finished)]
            : List (Nat × SourceStatus)))
    ∧ (0:Nat) ∈ [0, 1]
    ∧ (0:ℚ) ≤ 1
    ∧ ((handleMessage 0 0 interruptMsg
          ⟨5, [0, 1], [(0, SourceStatus.playing), (1, SourceStatus.finished)],
           [], [], 2⟩).1.sources = []
      ∧ (handleMessage 0 0 interruptMsg
          ⟨5, [0, 1], [(0, SourceStatus.playing), (1, SourceStatus.finished)],
           [], [], 2⟩).1.nextStartTime = 0
      ∧ (handleMessage 0 0 interruptMsg
          ⟨5, [0, 1], [(0, SourceStatus.playing), (1, SourceStatus.finished)],
           [], [], 2⟩).2
          = ([0, 1] : List Nat).map CoreEvent.sourceStopCalled
      ∧ (0, stopSource SourceStatus.playing)
          ∈ (handleMessage 0 0 interruptMsg
              ⟨5, [0, 1], [(0, SourceStatus.playing), (1, SourceStatus.finished)],
               [], [], 2⟩).1.buffers
      ∧ stopSource SourceStatus.finished = SourceStatus.finished
      ∧ (handleMessage 1 0 (audioMsg 1)
            (handleMessage 0 0 interruptMsg
              ⟨5, [0, 1], [(0, SourceStatus.playing), (1, SourceStatus.finished)],
               [], [], 2⟩).1).2
          = [CoreEvent.sourceStarted
              (handleMessage 0 0 interruptMsg
                ⟨5, [0, 1], [(0, SourceStatus.playing), (1, SourceStatus.finished)],
                 [], [], 2⟩).1.nextSourceId 1]) :=
  ⟨by decide, by decide, by decide,
   C2_interrupt_clears_playback
     ⟨5, [0, 1], [(0, SourceStatus.playing), (1, SourceStatus.finished)], [], [], 2⟩
     0 0 0 SourceStatus.playing (by decide) (by decide) 1 1 0 (by decide)⟩

end GeminiLive

namespace GeminiLive

theorem handleMessage_turnComplete_user_emit (now : ℚ) (ts : Nat) (s : SvcState)
    (h : jsTrim s.currentInputTranscription ≠ []) :
    senderItems Sender.user (handleMessage now ts turnCompleteMsg s).2
      = [⟨freshId ts ("-user".toList), Sender.user,
          s.currentInputTranscription, ts, true⟩]
    ∧ (handleMessage now ts turnCompleteMsg s).1.currentInputTranscription = [] := by
  by_cases hai : jsTrim s.currentOutputTranscription = [] <;>
    simp [handleMessage, handleAudio, handleInterrupt, handleInputDelta,
      handleOutputDelta, handleTurnComplete, turnCompleteMsg, senderItems,
      transcriptionItems, h, hai]

theorem handleMessage_turnComplete_user_skip (now : ℚ) (ts : Nat) (s : SvcState)
    (h : jsTrim s.currentInputTranscription = []) :
    senderItems Sender.user (handleMessage now ts turnCompleteMsg s).2 = []
    ∧ (handleMessage now ts turnCompleteMsg s).1.currentInputTranscription
        = s.currentInputTranscription := by
  by_cases hai : jsTrim s.currentOutputTranscription = [] <;>
    simp [handleMessage, handleAudio, handleInterrupt, handleInputDelta,
      handleOutputDelta, handleTurnComplete, turnCompleteMsg, senderItems,
      transcriptionItems, h, hai]

theorem handleMessage_turnComplete_ai_emit (now : ℚ) (ts : Nat) (s : SvcState)
    (h : jsTrim s.currentOutputTranscription ≠ []) :
    senderItems Sender.ai (handleMessage now ts turnCompleteMsg s).2
      = [⟨freshId ts ("-ai".toList), Sender.ai,
          s.currentOutputTranscription, ts, true⟩]
    ∧ (handleMessage now ts turnCompleteMsg s).1.currentOutputTranscription = [] := by
  by_cases hu : jsTrim s.currentInputTranscription = [] <;>
    simp [handleMessage, handleAudio, handleInterrupt, handleInputDelta,
      handleOutputDelta, handleTurnComplete, turnCompleteMsg, senderItems,
      transcriptionItems, h, hu]

theorem handleMessage_turnComplete_ai_skip (now : ℚ) (ts : Nat) (s : SvcState)
    (h : jsTrim s.currentOutputTranscription = []) :
    senderItems Sender.ai (handleMessage now ts turnCompleteMsg s).2 = []
    ∧ (handleMessage now ts turnCompleteMsg s).1.currentOutputTranscription
        = s.currentOutputTranscription := by
  by_cases hu : jsTrim s.currentInputTranscription = [] <;>
    simp [handleMessage, handleAudio, handleInterrupt, handleInputDelta,
      handleOutputDelta, handleTurnComplete, turnCompleteMsg, senderItems,
      transcriptionItems, h, hu]

end GeminiLive

namespace GeminiLive

/-- C3: at a turn-complete signal each sender with non-whitespace pending
text emits exactly one final item with the pending text, a fresh id and
the current timestamp, and its buffer is cleared; an empty or
whitespace-only buffer emits nothing.  Concretely, after the deltas
user:"Hola", ai:"Hi", ai:" there", a turn-complete emits exactly the two
items and empties both buffers. -/
theorem C3_turn_complete_per_sender_emission :
    (∀ (s : SvcState) (now : ℚ) (ts : Nat),
        (jsTrim s.currentInputTranscription ≠ [] →
          senderItems Sender.user (handleMessage now ts turnCompleteMsg s).2
              = [⟨freshId ts ("-user".toList), Sender.user,
                  s.currentInputTranscription, ts, true⟩]
            ∧ (handleMessage now ts turnCompleteMsg s).1.currentInputTranscription
                = [])
        ∧ (jsTrim s.currentInputTranscription = [] →
          senderItems Sender.user (handleMessage now ts turnCompleteMsg s).2 = []
            ∧ (handleMessage now ts turnCompleteMsg s).1.currentInputTranscription
                = s.currentInputTranscription)
        ∧ (jsTrim s.currentOutputTranscription ≠ [] →
          senderItems Sender.ai (handleMessage now ts turnCompleteMsg s).2
              = [⟨freshId ts ("-ai".toList), Sender.ai,
                  s.currentOutputTranscription, ts, true⟩]
            ∧ (handleMessage now ts turnCompleteMsg s).1.currentOutputTranscription
                = [])
        ∧ (jsTrim s.currentOutputTranscription = [] →
          senderItems Sender.ai (handleMessage now ts turnCompleteMsg s).2 = []
            ∧ (handleMessage now ts turnCompleteMsg s).1.currentOutputTranscription
                = s.currentOutputTranscription))
    ∧ (transcriptionItems
          (runMessages initialState
            [(0, 0, inputDeltaMsg ("Hola".toList)),
             (0, 0, outputDeltaMsg ("Hi".toList)),
             (0, 0, outputDeltaMsg (" there".toList)),
             (0, 0, turnCompleteMsg)]).2
        = [⟨"0-user".toList, Sender.user, "Hola".toList, 0, true⟩,
           ⟨"0-ai".toList, Sender.ai, "Hi there".toList, 0, true⟩]
      ∧ (runMessages initialState
            [(0, 0, inputDeltaMsg ("Hola".toList)),
             (0, 0, outputDeltaMsg ("Hi".toList)),
             (0, 0, outputDeltaMsg (" there".toList)),
             (0, 0, turnCompleteMsg)]).1.currentInputTranscription = []
      ∧ (runMessages initialState
            [(0, 0, inputDeltaMsg ("Hola".toList)),
             (0, 0, outputDeltaMsg ("Hi".toList)),
             (0, 0, outputDeltaMsg (" there".toList)),
             (0, 0, turnCompleteMsg)]).1.currentOutputTranscription = []) := by
  refine ⟨fun s now ts => ⟨?_, ?_, ?_, ?_⟩, by decide⟩
  · exact handleMessage_turnComplete_user_emit now ts s
  · exact handleMessage_turnComplete_user_skip now ts s
  · exact handleMessage_turnComplete_ai_emit now ts s
  · exact handleMessage_turnComplete_ai_skip now ts s

theorem C3_witness :
    jsTrim (("Hola".toList : List Char)) ≠ []
    ∧ (senderItems Sender.user
          (handleMessage 0 0 turnCompleteMsg
            ⟨0, [], [], "Hola".toList, [], 0⟩).2
        = [⟨freshId 0 ("-user".toList), Sender.user, "Hola".toList, 0, true⟩]
      ∧ (handleMessage 0 0 turnCompleteMsg
            ⟨0, [], [], "Hola".toList, [], 0⟩).1.currentInputTranscription = []) :=
  ⟨by decide,
   (C3_turn_complete_per_sender_emission.1
     ⟨0, [], [], "Hola".toList, [], 0⟩ 0 0).1 (by decide)⟩

/-- C4: processing an interruption clears the ai pending buffer without
emitting any item and leaves the user buffer unchanged; concretely, a
pending ai partial "parti" is discarded by an interruption and the
following turn-complete emits only the surviving user item. -/
theorem C4_interrupt_discards_ai_partials :
    (∀ (s : SvcState) (now : ℚ) (ts : Nat),
        transcriptionItems (handleMessage now ts interruptMsg s).2 = []
        ∧ (handleMessage now ts interruptMsg s).1.currentOutputTranscription = []
        ∧ (handleMessage now ts interruptMsg s).1.currentInputTranscription
            = s.currentInputTranscription)
    ∧ (transcriptionItems
          (runMessages initialState
            [(0, 0, inputDeltaMsg ("Hola".toList)),
             (0, 0, outputDeltaMsg ("parti".toList)),
             (0, 0, interruptMsg),
             (0, 0, turnCompleteMsg)]).2
        = [⟨"0-user".toList, Sender.user, "Hola".toList, 0, true⟩]) := by
  refine ⟨fun s now ts => ?_, by decide⟩
  rw [handleMessage_interruptMsg]
  refine ⟨?_, rfl, rfl⟩
  simp [transcriptionItems, List.filterMap_map]

end GeminiLive

namespace GeminiLive

/-- C10: at turn-complete a whitespace-only pending buffer — of either
sender — is not cleared and emits nothing; the surviving text is
prepended to that sender's next delta, and the next turn's emitted item
carries the exact untrimmed concatenation. -/
theorem C10_whitespace_only_buffer_survives
    (s : SvcState) (now now2 now3 : ℚ) (ts ts2 ts3 : Nat) (t : List Char) :
    (jsTrim s.currentInputTranscription = [] →
      senderItems Sender.user (handleMessage now ts turnCompleteMsg s).2 = []
      ∧ (handleMessage now ts turnCompleteMsg s).1.currentInputTranscription
          = s.currentInputTranscription
      ∧ (handleMessage now2 ts2 (inputDeltaMsg t)
            (handleMessage now ts turnCompleteMsg s).1).1.currentInputTranscription
          = s.currentInputTranscription ++ t
      ∧ (jsTrim (s.currentInputTranscription ++ t) ≠ [] →
          senderItems Sender.user
              (handleMessage now3 ts3 turnCompleteMsg
                (handleMessage now2 ts2 (inputDeltaMsg t)
                  (handleMessage now ts turnCompleteMsg s).1).1).2
            = [⟨freshId ts3 ("-user".toList), Sender.user,
                s.currentInputTranscription ++ t, ts3, true⟩]
          ∧ (handleMessage now3 ts3 turnCompleteMsg
                (handleMessage now2 ts2 (inputDeltaMsg t)
                  (handleMessage now ts turnCompleteMsg s).1).1).1.currentInputTranscription
              = []))
    ∧ (jsTrim s.currentOutputTranscription = [] →
      senderItems Sender.ai (handleMessage now ts turnCompleteMsg s).2 = []
      ∧ (handleMessage now ts turnCompleteMsg s).1.currentOutputTranscription
          = s.currentOutputTranscription
      ∧ (handleMessage now2 ts2 (outputDeltaMsg t)
            (handleMessage now ts turnCompleteMsg s).1).1.currentOutputTranscription
          = s.currentOutputTranscription ++ t
      ∧ (jsTrim (s.currentOutputTranscription ++ t) ≠ [] →
          senderItems Sender.ai
              (handleMessage now3 ts3 turnCompleteMsg
                (handleMessage now2 ts2 (outputDeltaMsg t)
                  (handleMessage now ts turnCompleteMsg s).1).1).2
            = [⟨freshId ts3 ("-ai".toList), Sender.ai,
                s.currentOutputTranscription ++ t, ts3, true⟩]
          ∧ (handleMessage now3 ts3 turnCompleteMsg
                (handleMessage now2 ts2 (outputDeltaMsg t)
                  (handleMessage now ts turnCompleteMsg s).1).1).1.currentOutputTranscription
              = [])) := by
  constructor
  · intro hws
    obtain ⟨h1, h2⟩ := handleMessage_turnComplete_user_skip now ts s hws
    refine ⟨h1, h2, ?_, ?_⟩
    · rw [handleMessage_inputDeltaMsg, h2]
    · intro hne
      have hstate : (handleMessage now2 ts2 (inputDeltaMsg t)
          (handleMessage now ts turnCompleteMsg s).1).1.currentInputTranscription
          = s.currentInputTranscription ++ t := by
        rw [handleMessage_inputDeltaMsg, h2]
      have := handleMessage_turnComplete_user_emit now3 ts3
        (handleMessage now2 ts2 (inputDeltaMsg t)
          (handleMessage now ts turnCompleteMsg s).1).1 (by rw [hstate]; exact hne)
      rwa [hstate] at this
  · intro hws
    obtain ⟨h1, h2⟩ := handleMessage_turnComplete_ai_skip now ts s hws
    refine ⟨h1, h2, ?_, ?_⟩
    · rw [handleMessage_outputDeltaMsg, h2]
    · intro hne
      have hstate : (handleMessage now2 ts2 (outputDeltaMsg t)
          (handleMessage now ts turnCompleteMsg s).1).1.currentOutputTranscription
          = s.currentOutputTranscription ++ t := by
        rw [handleMessage_outputDeltaMsg, h2]
      have := handleMessage_turnComplete_ai_emit now3 ts3
        (handleMessage now2 ts2 (outputDeltaMsg t)
          (handleMessage now ts turnCompleteMsg s).1).1 (by rw [hstate]; exact hne)
      rwa [hstate] at this

theorem C10_witness :
    jsTrim ((" ".toList : List Char)) = []
    ∧ jsTrim ((" ".toList : List Char) ++ "Hola".toList) ≠ []
    ∧ (senderItems Sender.user
          (handleMessage 0 0 turnCompleteMsg
            ⟨0, [], [], " ".toList, " ".toList, 0⟩).2 = []
      ∧ (handleMessage 0 0 turnCompleteMsg
            ⟨0, [], [], " ".toList, " ".toList, 0⟩).1.currentInputTranscription
          = " ".toList
      ∧ (handleMessage 0 0 (inputDeltaMsg ("Hola".toList))
            (handleMessage 0 0 turnCompleteMsg
              ⟨0, [], [], " ".toList, " ".toList, 0⟩).1).1.currentInputTranscription
          = " ".toList ++ "Hola".toList
      ∧ (jsTrim ((" ".toList : List Char) ++ "Hola".toList) ≠ [] →
          senderItems Sender.user
              (handleMessage 0 0 turnCompleteMsg
                (handleMessage 0 0 (inputDeltaMsg ("Hola".toList))
                  (handleMessage 0 0 turnCompleteMsg
                    ⟨0, [], [], " ".toList, " ".toList, 0⟩).1).1).2
            = [⟨freshId 0 ("-user".toList), Sender.user,
                " ".toList ++ "Hola".toList, 0, true⟩]
          ∧ (handleMessage 0 0 turnCompleteMsg
                (handleMessage 0 0 (inputDeltaMsg ("Hola".toList))
                  (handleMessage 0 0 turnCompleteMsg
                    ⟨0, [], [], " ".toList, " ".toList, 0⟩).1).1).1.currentInputTranscription
              = []))
    ∧ (senderItems Sender.ai
          (handleMessage 0 0 turnCompleteMsg
            ⟨0, [], [], " ".toList, " ".toList, 0⟩).2 = []
      ∧ (handleMessage 0 0 turnCompleteMsg
            ⟨0, [], [], " ".toList, " ".toList, 0⟩).1.currentOutputTranscription
          = " ".toList
      ∧ (handleMessage 0 0 (outputDeltaMsg ("Hola".toList))
            (handleMessage 0 0 turnCompleteMsg
              ⟨0, [], [], " ".toList, " ".toList, 0⟩).1).1.currentOutputTranscription
          = " ".toList ++ "Hola".toList
      ∧ (jsTrim ((" ".toList : List Char) ++ "Hola".toList) ≠ [] →
          senderItems Sender.ai
              (handleMessage 0 0 turnCompleteMsg
                (handleMessage 0 0 (outputDeltaMsg ("Hola".toList))
                  (handleMessage 0 0 turnCompleteMsg
                    ⟨0, [], [], " ".toList, " ".toList, 0⟩).1).1).2
            = [⟨freshId 0 ("-ai".toList), Sender.ai,
                " ".toList ++ "Hola".toList, 0, true⟩]
          ∧ (handleMessage 0 0 turnCompleteMsg
                (handleMessage 0 0 (outputDeltaMsg ("Hola".toList))
                  (handleMessage 0 0 turnCompleteMsg
                    ⟨0, [], [], " ".toList, " ".toList, 0⟩).1).1).1.currentOutputTranscription
              = [])) :=
  ⟨by decide, by decide,
   (C10_whitespace_only_buffer_survives
     ⟨0, [], [], " ".toList, " ".toList, 0⟩ 0 0 0 0 0 0 ("Hola".toList)).1 (by decide),
   (C10_whitespace_only_buffer_survives
     ⟨0, [], [], " ".toList, " ".toList, 0⟩ 0 0 0 0 0 0 ("Hola".toList)).2 (by decide)⟩

end GeminiLive

namespace GeminiLive

theorem handleMessage_nextStartTime (now : ℚ) (ts : Nat) (m : ServerMsg)
    (s : SvcState) :
    (handleMessage now ts m s).1.nextStartTime
      = if m.interrupted then 0
        else
          match m.audio with
          | none => s.nextStartTime
          | some d => max s.nextStartTime now + d := by
  obtain ⟨a, i, inp, outp, tc⟩ := m
  cases a <;> cases i <;> cases inp <;> cases outp <;> cases tc <;>
    simp [handleMessage, handleAudio, handleInterrupt, handleInputDelta,
      handleOutputDelta, handleTurnComplete]

/-- C7: the playback cursor never decreases under any non-interruption
message (durations are nonnegative), and only an interruption resets it
to zero. -/
theorem C7_nextStartTime_monotone
    (s : SvcState) (m : ServerMsg) (now : ℚ) (ts : Nat)
    (hdur : ∀ d : ℚ, m.audio = some d → 0 ≤ d) :
    (m.interrupted = false →
        s.nextStartTime ≤ (handleMessage now ts m s).1.nextStartTime)
    ∧ (m.interrupted = true →
        (handleMessage now ts m s).1.nextStartTime = 0) := by
  rw [handleMessage_nextStartTime] at *
  constructor
  · intro hi
    rw [hi]
    simp only [Bool.false_eq_true, if_false]
    cases ha : m.audio with
    | none => exact le_refl _
    | some d =>
        have h0 : 0 ≤ d := hdur d ha
        calc s.nextStartTime ≤ max s.nextStartTime now := le_max_left _ _
          _ ≤ max s.nextStartTime now + d := le_add_of_nonneg_right h0
  · intro hi
    rw [hi]
    simp

theorem C7_witness :
    (∀ d : ℚ, (audioMsg 1).audio = some d → 0 ≤ d)
    ∧ (audioMsg 1).interrupted = false
    ∧ interruptMsg.interrupted = true
    ∧ (∀ d : ℚ, interruptMsg.audio = some d → 0 ≤ d)
    ∧ initialState.nextStartTime
        ≤ (handleMessage 0 0 (audioMsg 1) initialState).1.nextStartTime
    ∧ (handleMessage 0 0 interruptMsg initialState).1.nextStartTime = 0 :=
  ⟨by simp [audioMsg], rfl, rfl, by simp [interruptMsg],
   (C7_nextStartTime_monotone initialState (audioMsg 1) 0 0
      (by simp [audioMsg])).1 rfl,
   (C7_nextStartTime_monotone initialState interruptMsg 0 0
      (by simp [interruptMsg])).2 rfl⟩

end GeminiLive

namespace GeminiLive

theorem handleMessage_no_terminal (now : ℚ) (ts : Nat) (m : ServerMsg)
    (s : SvcState) :
    CoreEvent.errorEvent ∉ (handleMessage now ts m s).2
    ∧ CoreEvent.closeEvent ∉ (handleMessage now ts m s).2 := by
  obtain ⟨a, i, inp, outp, tc⟩ := m
  cases a <;> cases i <;> cases inp <;> cases outp <;> cases tc <;>
    simp [handleMessage, handleAudio, handleInterrupt, handleInputDelta,
      handleOutputDelta, handleTurnComplete] <;>
    split_ifs <;> simp

theorem runInputs_terminal_counts (inputs : List SessionInput) :
    ∀ s : CoreState,
      (runInputs s inputs).2.count CoreEvent.errorEvent = inputs.countP isChanError
      ∧ (runInputs s inputs).2.count CoreEvent.closeEvent
          = inputs.countP isChanClose := by
  induction inputs with
  | nil => intro s; exact ⟨rfl, rfl⟩
  | cons i rest ih =>
      intro s
      cases i with
      | chanOpen =>
          simpa [runInputs, stepInput, isChanError, isChanClose,
            List.countP_cons] using ih ⟨true, s.svc⟩
      | chanMessage now ts m =>
          have hm := handleMessage_no_terminal now ts m s.svc
          have h1 := List.count_eq_zero.mpr hm.1
          have h2 := List.count_eq_zero.mpr hm.2
          have := ih ⟨s.captureActive, (handleMessage now ts m s.svc).1⟩
          simp [runInputs, stepInput, isChanError, isChanClose,
            List.countP_cons, List.count_append, h1, h2, this.1, this.2]
      | chanError =>
          have := ih s
          simp [runInputs, stepInput, isChanError, isChanClose,
            List.countP_cons, List.count_append, this.1, this.2, List.count_cons]
      | chanClose =>
          have := ih s
          simp [runInputs, stepInput, isChanError, isChanClose,
            List.countP_cons, List.count_append, this.1, this.2, List.count_cons]
      | captureFrame samples =>
          have := ih s
          by_cases hc : s.captureActive <;>
            simp [runInputs, stepInput, onAudioProcess, isChanError, isChanClose,
              List.countP_cons, List.count_append, List.count_cons,
              this.1, this.2, hc]

end GeminiLive

namespace GeminiLive

/-- C5 counterexample: in a session where the channel fires its error
callback in the Open state and then its close callback (as WebSocket-like
channels do), the core forwards both: one error event AND one close event
are emitted for the same session, so the core does not guarantee
terminal-event exclusivity. -/
theorem C5_counterexample :
    (runInputs initCore
        [SessionInput.chanOpen, SessionInput.chanError,
         SessionInput.chanClose]).2.count CoreEvent.errorEvent = 1
    ∧ (runInputs initCore
        [SessionInput.chanOpen, SessionInput.chanError,
         SessionInput.chanClose]).2.count CoreEvent.closeEvent = 1 := by
  decide

/-- C5 (amended): the core forwards terminal callbacks one-for-one — it
emits exactly one error event per channel error callback and exactly one
close event per channel close callback, with no suppression; hence a
session in which the channel delivers exactly one terminal callback gets
exactly one terminal event. -/
theorem C5_terminal_event_forwarding (inputs : List SessionInput) (s : CoreState) :
    (runInputs s inputs).2.count CoreEvent.errorEvent = inputs.countP isChanError
    ∧ (runInputs s inputs).2.count CoreEvent.closeEvent = inputs.countP isChanClose
    ∧ (inputs.countP isChanError + inputs.countP isChanClose = 1 →
        (runInputs s inputs).2.count CoreEvent.errorEvent
          + (runInputs s inputs).2.count CoreEvent.closeEvent = 1) := by
  obtain ⟨h1, h2⟩ := runInputs_terminal_counts inputs s
  exact ⟨h1, h2, fun h => by rw [h1, h2]; exact h⟩

theorem C5_terminal_event_forwarding_witness :
    ([SessionInput.chanOpen, SessionInput.chanError].countP isChanError
        + [SessionInput.chanOpen, SessionInput.chanError].countP isChanClose = 1)
    ∧ ((runInputs initCore
          [SessionInput.chanOpen, SessionInput.chanError]).2.count
            CoreEvent.errorEvent
        + (runInputs initCore
            [SessionInput.chanOpen, SessionInput.chanError]).2.count
              CoreEvent.closeEvent = 1) :=
  ⟨by decide,
   (C5_terminal_event_forwarding
      [SessionInput.chanOpen, SessionInput.chanError] initCore).2.2 (by decide)⟩

/-- C6 counterexample: after the channel error callback the capture stage
keeps running — a capture frame arriving afterwards is still metered and
transmitted, so "the Capture Stage is stopped" fails on the code. -/
theorem C6_counterexample :
    (runInputs initCore
        [SessionInput.chanOpen, SessionInput.chanError,
         SessionInput.captureFrame [1]]).2
      = [CoreEvent.errorEvent, CoreEvent.audioData (rmsSq [1]),
         CoreEvent.sendRealtime [1]]
    ∧ (runInputs initCore
        [SessionInput.chanOpen, SessionInput.chanError,
         SessionInput.captureFrame [1]]).2.count (CoreEvent.sendRealtime [1])
        ≠ 0 :=
  ⟨rfl, by decide⟩

/-- C6 (amended): on a channel error callback the core surfaces exactly
one error event and changes nothing else — no reconnection is attempted
and no state is modified; in particular the capture stage is NOT stopped:
its behavior on subsequent frames is unchanged, and while wired it still
meters and transmits every frame. -/
theorem C6_channel_error_single_event (s : CoreState) (samples : List ℚ)
    (hcap : s.captureActive = true) :
    stepInput s SessionInput.chanError = (s, [CoreEvent.errorEvent])
    ∧ stepInput (stepInput s SessionInput.chanError).1
        (SessionInput.captureFrame samples)
      = stepInput s (SessionInput.captureFrame samples)
    ∧ stepInput s (SessionInput.captureFrame samples)
      = (s, [CoreEvent.audioData (rmsSq samples),
             CoreEvent.sendRealtime samples]) := by
  refine ⟨rfl, rfl, ?_⟩
  simp [stepInput, onAudioProcess, hcap]

theorem C6_channel_error_single_event_witness :
    ((⟨true, initialState⟩ : CoreState).captureActive = true)
    ∧ (stepInput ⟨true, initialState⟩ SessionInput.chanError
        = (⟨true, initialState⟩, [CoreEvent.errorEvent])
      ∧ stepInput (stepInput ⟨true, initialState⟩ SessionInput.chanError).1
          (SessionInput.captureFrame [1])
        = stepInput ⟨true, initialState⟩ (SessionInput.captureFrame [1])
      ∧ stepInput ⟨true, initialState⟩ (SessionInput.captureFrame [1])
        = (⟨true, initialState⟩,
           [CoreEvent.audioData (rmsSq [1]), CoreEvent.sendRealtime [1]])) :=
  ⟨rfl, C6_channel_error_single_event ⟨true, initialState⟩ [1] rfl⟩

end GeminiLive

namespace GeminiLive

theorem rmsSq_le_one (samples : List ℚ) (hne : samples ≠ [])
    (hbound : ∀ x ∈ samples, -1 ≤ x ∧ x ≤ 1) :
    rmsSq samples ≤ 1 := by
  have hlen : (0:ℚ) < samples.length := by
    have := List.length_pos.mpr hne
    exact_mod_cast this
  have hsq : ∀ y ∈ samples.map (fun x => x * x), y ≤ (1:ℚ) := by
    intro y hy
    obtain ⟨x, hx, rfl⟩ := List.mem_map.mp hy
    obtain ⟨hl, hr⟩ := hbound x hx
    nlinarith
  have hsum : (samples.map (fun x => x * x)).sum ≤ (samples.length : ℚ) := by
    have := List.sum_le_card_nsmul (samples.map (fun x => x * x)) 1 hsq
    simpa using this
  rw [rmsSq, div_le_one hlen]
  exact hsum

/-- C8: for each captured frame the callback computes the rms as the
square root of the mean of the squared samples, a value in [0,1] for
samples in [-1,1], and produces exactly one level delivery followed by
exactly one transmission of the same frame, in that order. -/
theorem C8_capture_rms_metering
    (samples : List ℚ) (hne : samples ≠ [])
    (hbound : ∀ x ∈ samples, -1 ≤ x ∧ x ≤ 1) :
    (∀ s : CoreState, s.captureActive = true →
        stepInput s (SessionInput.captureFrame samples)
          = (s, [CoreEvent.audioData (rmsSq samples),
                 CoreEvent.sendRealtime samples]))
    ∧ rmsSq samples = (samples.map (fun x => x * x)).sum / samples.length
    ∧ 0 ≤ Real.sqrt ((rmsSq samples : ℝ))
    ∧ Real.sqrt ((rmsSq samples : ℝ)) ≤ 1 := by
  refine ⟨fun s h => by simp [stepInput, onAudioProcess, h], rfl,
    Real.sqrt_nonneg _, ?_⟩
  rw [Real.sqrt_le_one]
  have := rmsSq_le_one samples hne hbound
  exact_mod_cast this

theorem C8_capture_rms_metering_witness :
    (([(1:ℚ), -1] : List ℚ) ≠ [])
    ∧ (∀ x ∈ ([(1:ℚ), -1] : List ℚ), -1 ≤ x ∧ x ≤ 1)
    ∧ ((⟨true, initialState⟩ : CoreState).captureActive = true)
    ∧ stepInput ⟨true, initialState⟩ (SessionInput.captureFrame [1, -1])
        = (⟨true, initialState⟩,
           [CoreEvent.audioData (rmsSq [1, -1]),
            CoreEvent.sendRealtime [1, -1]])
    ∧ 0 ≤ Real.sqrt ((rmsSq [1, -1] : ℝ))
    ∧ Real.sqrt ((rmsSq [1, -1] : ℝ)) ≤ 1 :=
  ⟨by decide, by decide, rfl,
   (C8_capture_rms_metering [1, -1] (by decide) (by decide)).1
     ⟨true, initialState⟩ rfl,
   (C8_capture_rms_metering [1, -1] (by decide) (by decide)).2.2.1,
   (C8_capture_rms_metering [1, -1] (by decide) (by decide)).2.2.2⟩

/-- C9: `disconnect` releases every owned resource from any state and is
idempotent — a second call raises nothing and leaves everything released;
the embedding is a total function, so no state makes it fail. -/
theorem C9_disconnect_idempotent :
    ∀ r : Resources,
      allReleased (disconnectSvc r)
      ∧ disconnectSvc (disconnectSvc r) = disconnectSvc r := by
  intro r
  obtain ⟨p, i, ic, oc, st⟩ := r
  cases p <;> cases i <;> cases ic <;> cases oc <;> cases st <;> exact ⟨rfl, rfl⟩

end GeminiLive
